import Mathlib

/- Verification of the finsight-lite core: a shallow embedding of
   src/app.py (page-range parsing and PDF page extraction) and of
   src/ai_engine.py (the Gemini document-analysis pipeline).
   Python strings are modelled as lists of characters; the external
   pypdf and google.generativeai libraries are modelled by explicit
   environments describing their observable behavior. -/

/-- Python whitespace test for the six ASCII whitespace characters recognised
by str.strip and by int (space, tab, newline, carriage return, vertical tab,
form feed); non-ASCII whitespace is out of scope of this model. -/
def pyWhitespace (c : Char) : Bool :=
  decide (c.toNat = 32 ∨ c.toNat = 9 ∨ c.toNat = 10 ∨ c.toNat = 13 ∨
    c.toNat = 11 ∨ c.toNat = 12)

/-- ASCII digit test, matching the base-10 digits accepted by Python int
(non-ASCII decimal digits are out of scope of this model). -/
def isDigitChar (c : Char) : Bool :=
  decide (48 ≤ c.toNat ∧ c.toNat ≤ 57)

/-- Python str.strip with no argument: drop leading and trailing whitespace. -/
def pyStrip (s : List Char) : List Char :=
  ((s.dropWhile pyWhitespace).reverse.dropWhile pyWhitespace).reverse

/-- Value of a list of ASCII digits read in base 10. -/
def digitsVal (s : List Char) : Nat :=
  s.foldl (fun a c => 10 * a + (c.toNat - 48)) 0

/-- Digit-run shape accepted by Python int after the optional sign: one or
more digits, with single underscores allowed only between digits. -/
def pyDigitsOk (s : List Char) : Bool :=
  (s.splitOn '_').all (fun g => !g.isEmpty && g.all isDigitChar)

/-- Numeric value of a Python int digit run, ignoring underscore separators. -/
def pyDigitsVal (s : List Char) : Nat :=
  digitsVal (s.filter (fun c => !(c == '_')))

/-- Python int applied to an already stripped string: an optional sign
followed by an underscore-separated digit run. -/
def pyIntCore : List Char → Option Int
  | [] => none
  | c :: rest =>
    if c = '-' then
      if pyDigitsOk rest then some (-(pyDigitsVal rest : Int)) else none
    else if c = '+' then
      if pyDigitsOk rest then some ((pyDigitsVal rest : Int)) else none
    else if pyDigitsOk (c :: rest) then some ((pyDigitsVal (c :: rest) : Int))
    else none

/-- Python int on a string: surrounding whitespace is ignored, then an
optional sign and a digit run; none models the ValueError outcome. -/
def pyInt (s : List Char) : Option Int :=
  pyIntCore (pyStrip s)

/-- Integers lo, lo+1, ..., hi-1: the model of Python range(lo, hi). -/
def intRange (lo hi : Int) : List Int :=
  (List.range (hi - lo).toNat).map (fun (k : Nat) => lo + (k : Int))

/-- One comma-separated token of parse_page_selection (src/app.py lines
27-34): strip it; a token containing a dash is split on the dash and expanded
with range(start dash 1, end); any other token is a single page number giving
index value dash 1. The none result models every ValueError path, including a
dash-split that does not produce exactly two pieces. -/
def parseToken (part : List Char) : Option (List Int) :=
  let p := pyStrip part
  if '-' ∈ p then
    match p.splitOn '-' with
    | [sa, sb] =>
      match pyInt sa, pyInt sb with
      | some a, some b => some (intRange (a - 1) b)
      | _, _ => none
    | _ => none
  else
    match pyInt p with
    | some v => some [v - 1]
    | none => none

/-- Contribution of all tokens in order (the loop of src/app.py lines 27-34):
none as soon as any token raises ValueError, matching the try/except around
the whole loop (Python stops at the first bad token; the returned value is
None either way, so accumulating the rest preserves the observable result). -/
def collectTokens : List (List Char) → Option (List Int)
  | [] => some []
  | part :: rest =>
    match parseToken part, collectTokens rest with
    | some here, some more => some (here ++ more)
    | _, _ => none

/-- Observable outcome of parse_page_selection, keeping the st.error side
effect distinct: noSelection is the blank early return of lines 21-22,
formatError the ValueError handler of lines 35-37 (which displays a format
error and returns None), pages the normal return of lines 39-41. -/
inductive ParseOutcome where
  | noSelection
  | formatError
  | pages (l : List Int)
deriving DecidableEq

/-- parse_page_selection from src/app.py lines 17-41, with the Python set of
collected indices modelled as deduplication of the accumulated list: the
collected indices are filtered to the bounds, deduplicated and sorted
ascending, exactly as sorted applied to the filtered set. -/
def parse_page_selection_run (selection_str : List Char) (max_pages : Int) :
    ParseOutcome :=
  if pyStrip selection_str = [] then .noSelection
  else
    match collectTokens (selection_str.splitOn ',') with
    | none => .formatError
    | some pages =>
      .pages (List.insertionSort (fun a b => a ≤ b)
        ((pages.filter (fun p => decide (0 ≤ p) && decide (p < max_pages))).dedup))

/-- Return value of parse_page_selection as the caller sees it: both the
blank case and the ValueError case return None. -/
def parse_page_selection (selection_str : List Char) (max_pages : Int) :
    Option (List Int) :=
  match parse_page_selection_run selection_str max_pages with
  | .noSelection => none
  | .formatError => none
  | .pages l => some l

/-- Page-selection handling at module level in src/app.py (lines 130-147):
the app slices the document only when the selection field is nonempty and
parse_page_selection returns a truthy (nonempty) list; in every other case
the raw document is analyzed whole. -/
def app_uses_whole_document (page_selection : List Char) (total_pages : Int) :
    Bool :=
  if page_selection = [] then true
  else
    match parse_page_selection page_selection total_pages with
    | none => true
    | some l => l.isEmpty

/-- Abstract form of one well-formed token of a page-range expression. -/
inductive PageToken where
  | single (s : List Char)
  | range (sa sb : List Char)
deriving DecidableEq

/-- Nonempty all-digit string. -/
def digitStrB (s : List Char) : Bool :=
  !s.isEmpty && s.all isDigitChar

/-- Well-formedness of a token: its number fields are nonempty digit runs. -/
def tokWFB : PageToken → Bool
  | .single s => digitStrB s
  | .range sa sb => digitStrB sa && digitStrB sb

/-- For a range token, the start does not exceed the end. -/
def rangeOrderedB : PageToken → Bool
  | .single _ => true
  | .range sa sb => decide (pyDigitsVal sa ≤ pyDigitsVal sb)

/-- Zero-based indices a token stands for. -/
def tokIndices : PageToken → List Int
  | .single s => [(pyDigitsVal s : Int) - 1]
  | .range sa sb => intRange ((pyDigitsVal sa : Int) - 1) (pyDigitsVal sb)

/-- Index i is named by the token: value minus one for a single page, the
inclusive zero-based interval for a range token. -/
def tokMem (i : Int) : PageToken → Prop
  | .single s => i = (pyDigitsVal s : Int) - 1
  | .range sa sb =>
      (pyDigitsVal sa : Int) - 1 ≤ i ∧ i ≤ (pyDigitsVal sb : Int) - 1

/-- Text of one token. -/
def renderTok : PageToken → List Char
  | .single s => s
  | .range sa sb => sa ++ '-' :: sb

/-- Comma-separated page-range expression built from a list of tokens. -/
def renderExpr : List PageToken → List Char
  | [] => []
  | [t] => renderTok t
  | t :: ts => renderTok t ++ ',' :: renderExpr ts

/-- A digit character is not Python whitespace. -/
theorem digit_not_ws {c : Char} (h : isDigitChar c = true) :
    pyWhitespace c = false := by
  simp only [isDigitChar, decide_eq_true_eq] at h
  simp only [pyWhitespace, decide_eq_false_iff_not]
  omega

/-- A digit character is not the dash. -/
theorem digit_ne_dash {c : Char} (h : isDigitChar c = true) : c ≠ '-' :=
  fun hEq => absurd (hEq ▸ h) (by decide)

/-- A digit character is not the comma. -/
theorem digit_ne_comma {c : Char} (h : isDigitChar c = true) : c ≠ ',' :=
  fun hEq => absurd (hEq ▸ h) (by decide)

/-- A digit character is not the plus sign. -/
theorem digit_ne_plus {c : Char} (h : isDigitChar c = true) : c ≠ '+' :=
  fun hEq => absurd (hEq ▸ h) (by decide)

/-- A digit character is not the underscore. -/
theorem digit_ne_underscore {c : Char} (h : isDigitChar c = true) : c ≠ '_' :=
  fun hEq => absurd (hEq ▸ h) (by decide)

/-- dropWhile is the identity on a list none of whose elements satisfies the
predicate. -/
theorem dropWhile_all_false {α : Type} {p : α → Bool} {s : List α}
    (h : ∀ c ∈ s, p c = false) : s.dropWhile p = s := by
  cases s with
  | nil => rfl
  | cons c t =>
      rw [List.dropWhile_cons, h c (List.mem_cons_self c t)]
      simp

/-- pyStrip is the identity on a string without surrounding whitespace. -/
theorem pyStrip_eq_self {s : List Char}
    (h : ∀ c ∈ s, pyWhitespace c = false) : pyStrip s = s := by
  unfold pyStrip
  rw [dropWhile_all_false h, dropWhile_all_false, List.reverse_reverse]
  intro c hc
  exact h c (List.mem_reverse.mp hc)

/-- Unpacking of digitStrB. -/
theorem digitStrB_iff {s : List Char} :
    digitStrB s = true ↔ s ≠ [] ∧ ∀ c ∈ s, isDigitChar c = true := by
  simp [digitStrB, List.isEmpty_iff, List.all_eq_true]

/-- A nonempty digit run passes pyDigitsOk. -/
theorem pyDigitsOk_of_digits {s : List Char} (h : digitStrB s = true) :
    pyDigitsOk s = true := by
  obtain ⟨hne, hall⟩ := digitStrB_iff.mp h
  have hsplit : s.splitOn '_' = [s] :=
    List.splitOnP_eq_single _ _ (fun x hx hbeq => by
      exact digit_ne_underscore (hall x hx) (by simpa using hbeq))
  simp only [pyDigitsOk, hsplit, List.all_cons, List.all_nil, Bool.and_true,
    Bool.and_eq_true, Bool.not_eq_true', List.isEmpty_iff, List.all_eq_true]
  exact ⟨by simpa using hne, hall⟩

/-- On a digit run without underscores, pyDigitsVal is digitsVal. -/
theorem pyDigitsVal_of_digits {s : List Char} (h : digitStrB s = true) :
    pyDigitsVal s = digitsVal s := by
  obtain ⟨_, hall⟩ := digitStrB_iff.mp h
  unfold pyDigitsVal
  congr 1
  apply List.filter_eq_self.mpr
  intro c hc
  simpa using digit_ne_underscore (hall c hc)

/-- Python int succeeds on a nonempty digit run and returns its value. -/
theorem pyInt_digits {s : List Char} (h : digitStrB s = true) :
    pyInt s = some ((pyDigitsVal s : Int)) := by
  obtain ⟨hne, hall⟩ := digitStrB_iff.mp h
  have hstrip : pyStrip s = s :=
    pyStrip_eq_self (fun c hc => digit_not_ws (hall c hc))
  unfold pyInt
  rw [hstrip]
  cases s with
  | nil => exact absurd rfl hne
  | cons c t =>
      have hc : isDigitChar c = true := hall c (List.mem_cons_self c t)
      simp only [pyIntCore]
      rw [if_neg (digit_ne_dash hc), if_neg (digit_ne_plus hc),
        if_pos (pyDigitsOk_of_digits h)]

/-- splitOn for a separator that never occurs returns the whole string. -/
theorem splitOn_no_occurrence {x : Char} {s : List Char}
    (h : ∀ c ∈ s, c ≠ x) : s.splitOn x = [s] :=
  List.splitOnP_eq_single _ _ (fun c hc hbeq => h c hc (by simpa using hbeq))

/-- splitOn around a single occurrence of the separator. -/
theorem splitOn_middle {x : Char} {sa sb : List Char}
    (ha : ∀ c ∈ sa, c ≠ x) (hb : ∀ c ∈ sb, c ≠ x) :
    (sa ++ x :: sb).splitOn x = [sa, sb] := by
  have h1 : (sa ++ x :: sb).splitOnP (· == x) = sa :: sb.splitOnP (· == x) :=
    List.splitOnP_first _ sa (fun c hc hbeq => ha c hc (by simpa using hbeq))
      x (by simp) sb
  have h2 : sb.splitOn x = [sb] := splitOn_no_occurrence hb
  calc (sa ++ x :: sb).splitOn x = sa :: sb.splitOnP (· == x) := h1
    _ = [sa, sb] := by rw [show sb.splitOnP (· == x) = sb.splitOn x from rfl, h2]

/-- parseToken on a plain digit token: a single zero-based index. -/
theorem parseToken_single {s : List Char} (h : digitStrB s = true) :
    parseToken s = some [(pyDigitsVal s : Int) - 1] := by
  obtain ⟨_, hall⟩ := digitStrB_iff.mp h
  have hstrip : pyStrip s = s :=
    pyStrip_eq_self (fun c hc => digit_not_ws (hall c hc))
  have hnd : '-' ∉ s := fun hmem => digit_ne_dash (hall _ hmem) rfl
  simp only [parseToken, hstrip, if_neg hnd, pyInt_digits h]

/-- parseToken on a digits-dash-digits token: the inclusive range of
zero-based indices. -/
theorem parseToken_range {sa sb : List Char}
    (ha : digitStrB sa = true) (hb : digitStrB sb = true) :
    parseToken (sa ++ '-' :: sb) =
      some (intRange ((pyDigitsVal sa : Int) - 1) (pyDigitsVal sb)) := by
  obtain ⟨_, halla⟩ := digitStrB_iff.mp ha
  obtain ⟨_, hallb⟩ := digitStrB_iff.mp hb
  have hstrip : pyStrip (sa ++ '-' :: sb) = sa ++ '-' :: sb := by
    apply pyStrip_eq_self
    intro c hc
    rcases List.mem_append.mp hc with hca | hcb
    · exact digit_not_ws (halla c hca)
    · rcases List.mem_cons.mp hcb with rfl | hcb
      · rfl
      · exact digit_not_ws (hallb c hcb)
  have hmem : '-' ∈ sa ++ '-' :: sb :=
    List.mem_append.mpr (Or.inr (List.mem_cons_self _ _))
  have hsplit : (sa ++ '-' :: sb).splitOn '-' = [sa, sb] :=
    splitOn_middle (fun c hc => digit_ne_dash (halla c hc))
      (fun c hc => digit_ne_dash (hallb c hc))
  simp only [parseToken, hstrip, if_pos hmem, hsplit, pyInt_digits ha,
    pyInt_digits hb]

/-- parseToken on the text of any well-formed token yields its indices. -/
theorem parseToken_renderTok {t : PageToken} (h : tokWFB t = true) :
    parseToken (renderTok t) = some (tokIndices t) := by
  cases t with
  | single s => exact parseToken_single h
  | range sa sb =>
      rw [tokWFB, Bool.and_eq_true] at h
      exact parseToken_range h.1 h.2

/-- Characters of a well-formed token are digits or the dash. -/
theorem renderTok_chars {t : PageToken} (h : tokWFB t = true) :
    ∀ c ∈ renderTok t, isDigitChar c = true ∨ c = '-' := by
  cases t with
  | single s =>
      obtain ⟨_, hall⟩ := digitStrB_iff.mp h
      exact fun c hc => Or.inl (hall c hc)
  | range sa sb =>
      rw [tokWFB, Bool.and_eq_true] at h
      obtain ⟨_, halla⟩ := digitStrB_iff.mp h.1
      obtain ⟨_, hallb⟩ := digitStrB_iff.mp h.2
      intro c hc
      rcases List.mem_append.mp hc with hca | hcb
      · exact Or.inl (halla c hca)
      · rcases List.mem_cons.mp hcb with rfl | hcb
        · exact Or.inr rfl
        · exact Or.inl (hallb c hcb)

/-- The text of a well-formed token is nonempty. -/
theorem renderTok_ne_nil {t : PageToken} (h : tokWFB t = true) :
    renderTok t ≠ [] := by
  cases t with
  | single s => exact (digitStrB_iff.mp h).1
  | range sa sb => simp [renderTok]

/-- Characters of a rendered expression are digits, dashes or commas. -/
theorem renderExpr_chars :
    ∀ (tokens : List PageToken), (∀ t ∈ tokens, tokWFB t = true) →
      ∀ c ∈ renderExpr tokens,
        isDigitChar c = true ∨ c = '-' ∨ c = ',' := by
  intro tokens
  induction tokens with
  | nil => intro _ c hc; simp [renderExpr] at hc
  | cons t ts ih =>
      intro hwf c hc
      cases ts with
      | nil =>
          rcases renderTok_chars (hwf t (by simp)) c hc with h | h
          · exact Or.inl h
          · exact Or.inr (Or.inl h)
      | cons t2 ts2 =>
          simp only [renderExpr] at hc
          rcases List.mem_append.mp hc with hca | hcb
          · rcases renderTok_chars (hwf t (by simp)) c hca with h | h
            · exact Or.inl h
            · exact Or.inr (Or.inl h)
          · rcases List.mem_cons.mp hcb with rfl | hcb
            · exact Or.inr (Or.inr rfl)
            · exact ih (fun u hu => hwf u (List.mem_cons_of_mem _ hu)) c hcb

/-- A nonempty rendered expression is a nonempty character list. -/
theorem renderExpr_ne_nil :
    ∀ (tokens : List PageToken), tokens ≠ [] →
      (∀ t ∈ tokens, tokWFB t = true) → renderExpr tokens ≠ [] := by
  intro tokens hne hwf
  cases tokens with
  | nil => exact absurd rfl hne
  | cons t ts =>
      cases ts with
      | nil => exact renderTok_ne_nil (hwf t (by simp))
      | cons t2 ts2 =>
          simp only [renderExpr]
          intro hbad
          exact absurd hbad (by simp [renderTok_ne_nil (hwf t (by simp)),
            List.append_eq_nil])

/-- Splitting a rendered expression on commas recovers the token texts. -/
theorem splitOn_renderExpr :
    ∀ (tokens : List PageToken), tokens ≠ [] →
      (∀ t ∈ tokens, tokWFB t = true) →
      (renderExpr tokens).splitOn ',' = tokens.map renderTok := by
  intro tokens
  induction tokens with
  | nil => intro h; exact absurd rfl h
  | cons t ts ih =>
      intro _ hwf
      have hnc : ∀ c ∈ renderTok t, ¬((c == ',') = true) := by
        intro c hc hbeq
        rcases renderTok_chars (hwf t (by simp)) c hc with h | h
        · exact digit_ne_comma h (by simpa using hbeq)
        · rw [h] at hbeq; exact absurd hbeq (by decide)
      cases ts with
      | nil =>
          simp only [renderExpr, List.map]
          exact List.splitOnP_eq_single _ _ hnc
      | cons t2 ts2 =>
          have h1 : (renderTok t ++ ',' :: renderExpr (t2 :: ts2)).splitOnP
              (· == ',') =
              renderTok t :: (renderExpr (t2 :: ts2)).splitOnP (· == ',') :=
            List.splitOnP_first _ (renderTok t) hnc ',' (by simp) _
          have h2 : (renderExpr (t2 :: ts2)).splitOn ',' =
              (t2 :: ts2).map renderTok :=
            ih (by simp) (fun u hu => hwf u (List.mem_cons_of_mem _ hu))
          simp only [renderExpr, List.map]
          calc (renderTok t ++ ',' :: renderExpr (t2 :: ts2)).splitOn ','
              = renderTok t :: (renderExpr (t2 :: ts2)).splitOnP (· == ',') :=
                h1
            _ = renderTok t :: (t2 :: ts2).map renderTok := by
                rw [show (renderExpr (t2 :: ts2)).splitOnP (· == ',') =
                  (renderExpr (t2 :: ts2)).splitOn ',' from rfl, h2]

/-- Collecting the rendered tokens yields the concatenation of all token
contributions. -/
theorem collectTokens_map :
    ∀ (tokens : List PageToken), (∀ t ∈ tokens, tokWFB t = true) →
      collectTokens (tokens.map renderTok) =
        some ((tokens.map tokIndices).flatten) := by
  intro tokens
  induction tokens with
  | nil => intro _; rfl
  | cons t ts ih =>
      intro hwf
      simp only [List.map, collectTokens,
        parseToken_renderTok (hwf t (by simp)),
        ih (fun u hu => hwf u (List.mem_cons_of_mem _ hu)),
        List.flatten_cons]

/-- Membership in the model of Python range. -/
theorem mem_intRange {lo hi i : Int} :
    i ∈ intRange lo hi ↔ lo ≤ i ∧ i < hi := by
  unfold intRange
  constructor
  · intro hmem
    obtain ⟨k, hk, hEq⟩ := List.mem_map.mp hmem
    rw [List.mem_range] at hk
    omega
  · intro h
    refine List.mem_map.mpr ⟨(i - lo).toNat, ?_, ?_⟩
    · rw [List.mem_range]
      omega
    · omega

/-- The indices of a token are exactly the indices it names. -/
theorem mem_tokIndices {i : Int} {t : PageToken} :
    i ∈ tokIndices t ↔ tokMem i t := by
  cases t with
  | single s => simp [tokIndices, tokMem]
  | range sa sb =>
      simp only [tokIndices, tokMem, mem_intRange]
      omega

/-- Core correctness of parse_page_selection on well-formed comma-separated
token lists: the parse succeeds and returns the strictly ascending,
duplicate-free list of exactly the in-bounds indices named by the tokens. -/
theorem parse_renderExpr_spec (tokens : List PageToken) (mp : Int)
    (hne : tokens ≠ []) (hwf : ∀ t ∈ tokens, tokWFB t = true) :
    ∃ l, parse_page_selection_run (renderExpr tokens) mp =
        ParseOutcome.pages l ∧
      parse_page_selection (renderExpr tokens) mp = some l ∧
      l.Sorted (· < ·) ∧
      ∀ i : Int, i ∈ l ↔ ((∃ t ∈ tokens, tokMem i t) ∧ 0 ≤ i ∧ i < mp) := by
  have hstrip : pyStrip (renderExpr tokens) = renderExpr tokens := by
    apply pyStrip_eq_self
    intro c hc
    rcases renderExpr_chars tokens hwf c hc with h | h | h
    · exact digit_not_ws h
    · rw [h]; rfl
    · rw [h]; rfl
  have hne2 : renderExpr tokens ≠ [] := renderExpr_ne_nil tokens hne hwf
  have hsplit := splitOn_renderExpr tokens hne hwf
  have hcoll := collectTokens_map tokens hwf
  refine ⟨List.insertionSort (fun a b => a ≤ b)
      ((((tokens.map tokIndices).flatten).filter
        (fun p => decide (0 ≤ p) && decide (p < mp))).dedup), ?_, ?_, ?_, ?_⟩
  · rw [parse_page_selection_run, hstrip, if_neg hne2, hsplit, hcoll]
  · rw [parse_page_selection, parse_page_selection_run, hstrip, if_neg hne2,
      hsplit, hcoll]
  · have hsle : List.Sorted (fun a b : Int => a ≤ b)
        (List.insertionSort (fun a b => a ≤ b)
          ((((tokens.map tokIndices).flatten).filter
            (fun p => decide (0 ≤ p) && decide (p < mp))).dedup)) :=
      List.sorted_insertionSort _ _
    have hnd : (List.insertionSort (fun a b : Int => a ≤ b)
        ((((tokens.map tokIndices).flatten).filter
          (fun p => decide (0 ≤ p) && decide (p < mp))).dedup)).Nodup :=
      (List.perm_insertionSort _ _).nodup_iff.mpr (List.nodup_dedup _)
    exact List.Sorted.lt_of_le hsle hnd
  · intro i
    rw [List.mem_insertionSort, List.mem_dedup, List.mem_filter]
    simp only [Bool.and_eq_true, decide_eq_true_eq]
    constructor
    · rintro ⟨hmem, h0, hm⟩
      obtain ⟨s, hs, his⟩ := List.mem_flatten.mp hmem
      obtain ⟨t, ht, rfl⟩ := List.mem_map.mp hs
      exact ⟨⟨t, ht, mem_tokIndices.mp his⟩, h0, hm⟩
    · rintro ⟨⟨t, ht, hti⟩, h0, hm⟩
      refine ⟨List.mem_flatten.mpr
        ⟨tokIndices t, List.mem_map.mpr ⟨t, ht, rfl⟩,
          mem_tokIndices.mpr hti⟩, h0, hm⟩

/-- C1: for every page-range expression made of comma-separated tokens, each
a single 1-based page number or an inclusive 1-based range with start not
exceeding end, and every total page count at least 0, parse_page_selection
returns the strictly ascending duplicate-free list of the corresponding
0-based indices (value minus 1 for single tokens, the whole closed interval
for range tokens) restricted to the bounds; in particular the expression
built as "1, 5-7" with 20 total pages returns the indices 0, 4, 5, 6. -/
theorem C1_parse_page_selection_valid_tokens (tokens : List PageToken)
    (mp : Int) (hne : tokens ≠ []) (hmp : 0 ≤ mp)
    (hwf : ∀ t ∈ tokens, tokWFB t = true)
    (hord : ∀ t ∈ tokens, rangeOrderedB t = true) :
    parse_page_selection (String.data "1, 5-7") 20 = some [0, 4, 5, 6] ∧
    ∃ l, parse_page_selection (renderExpr tokens) mp = some l ∧
      l.Sorted (· < ·) ∧
      ∀ i : Int, i ∈ l ↔ ((∃ t ∈ tokens, tokMem i t) ∧ 0 ≤ i ∧ i < mp) := by
  obtain ⟨l, _, hval, hsort, hmem⟩ := parse_renderExpr_spec tokens mp hne hwf
  exact ⟨by decide, l, hval, hsort, hmem⟩

/-- Witness for C1 at the concrete token list 1 and 5-7 with 20 pages. -/
theorem C1_parse_page_selection_valid_tokens_witness :
    parse_page_selection (String.data "1, 5-7") 20 = some [0, 4, 5, 6] ∧
    ∃ l, parse_page_selection
        (renderExpr [PageToken.single ['1'], PageToken.range ['5'] ['7']])
        20 = some l ∧
      l.Sorted (· < ·) ∧
      ∀ i : Int, i ∈ l ↔
        ((∃ t ∈ [PageToken.single ['1'], PageToken.range ['5'] ['7']],
          tokMem i t) ∧ 0 ≤ i ∧ i < 20) :=
  C1_parse_page_selection_valid_tokens
    [PageToken.single ['1'], PageToken.range ['5'] ['7']] 20
    (by decide) (by decide) (by decide) (by decide)

/-- C9: a range token whose start exceeds its end does not crash the parse
and does not signal an error: it names no index at all, and the indices of
the remaining tokens are parsed and returned normally. -/
theorem C9_inverted_range_contributes_nothing (tokens : List PageToken)
    (mp : Int) (sa sb : List Char)
    (hmem : PageToken.range sa sb ∈ tokens)
    (hne : tokens ≠ []) (hwf : ∀ t ∈ tokens, tokWFB t = true)
    (hinv : pyDigitsVal sb < pyDigitsVal sa) :
    (∀ i : Int, ¬ tokMem i (PageToken.range sa sb)) ∧
    ∃ l, parse_page_selection (renderExpr tokens) mp = some l ∧
      parse_page_selection_run (renderExpr tokens) mp ≠
        ParseOutcome.formatError ∧
      ∀ i : Int, i ∈ l ↔ ((∃ t ∈ tokens, tokMem i t) ∧ 0 ≤ i ∧ i < mp) := by
  obtain ⟨l, hrun, hval, _, hmemi⟩ := parse_renderExpr_spec tokens mp hne hwf
  refine ⟨?_, l, hval, ?_, hmemi⟩
  · intro i hi
    rw [tokMem] at hi
    omega
  · rw [hrun]
    intro h
    exact ParseOutcome.noConfusion h

/-- Witness for C9 at the concrete expression built as "3-1, 2" with 9
pages. -/
theorem C9_inverted_range_contributes_nothing_witness :
    (∀ i : Int, ¬ tokMem i (PageToken.range ['3'] ['1'])) ∧
    ∃ l, parse_page_selection
        (renderExpr [PageToken.range ['3'] ['1'], PageToken.single ['2']])
        9 = some l ∧
      parse_page_selection_run
        (renderExpr [PageToken.range ['3'] ['1'], PageToken.single ['2']])
        9 ≠ ParseOutcome.formatError ∧
      ∀ i : Int, i ∈ l ↔
        ((∃ t ∈ [PageToken.range ['3'] ['1'], PageToken.single ['2']],
          tokMem i t) ∧ 0 ≤ i ∧ i < 9) :=
  C9_inverted_range_contributes_nothing
    [PageToken.range ['3'] ['1'], PageToken.single ['2']] 9 ['3'] ['1']
    (by decide) (by decide) (by decide) (by decide)

/-- If some comma-separated part fails token parsing, the whole collection
fails. -/
theorem collectTokens_none {parts : List (List Char)}
    (h : ∃ part ∈ parts, parseToken part = none) :
    collectTokens parts = none := by
  induction parts with
  | nil => simp at h
  | cons p rest ih =>
      obtain ⟨part, hmem, hbad⟩ := h
      rcases List.mem_cons.mp hmem with rfl | hmem2
      · rw [collectTokens, hbad]
      · rw [collectTokens, ih ⟨part, hmem2, hbad⟩]
        cases parseToken p <;> rfl

/-- C7: an expression containing any token that fails integer parsing (on
either side of a range or as a bare value) makes the whole parse fail with
the format error report, and the caller receives None, never a partial
subset of the successfully parsed tokens. -/
theorem C7_bad_token_fails_whole_parse (expr : List Char) (mp : Int)
    (hnb : pyStrip expr ≠ [])
    (hbad : ∃ part ∈ expr.splitOn ',', parseToken part = none) :
    parse_page_selection_run expr mp = ParseOutcome.formatError ∧
    parse_page_selection expr mp = none := by
  have hrun : parse_page_selection_run expr mp = ParseOutcome.formatError := by
    rw [parse_page_selection_run, if_neg hnb, collectTokens_none hbad]
  exact ⟨hrun, by rw [parse_page_selection, hrun]⟩

/-- Witness for C7 at the expression "x" with 9 pages. -/
theorem C7_bad_token_fails_whole_parse_witness :
    parse_page_selection_run (String.data "x") 9 =
      ParseOutcome.formatError ∧
    parse_page_selection (String.data "x") 9 = none :=
  C7_bad_token_fails_whole_parse (String.data "x") 9 (by decide) (by decide)

/-- A blank expression takes the early no-selection return. -/
theorem parse_blank_run {expr : List Char} (hblank : pyStrip expr = [])
    (mp : Int) :
    parse_page_selection_run expr mp = ParseOutcome.noSelection := by
  rw [parse_page_selection_run, if_pos hblank]

/-- C8: for every total page count at least 0, a blank or all-whitespace
expression returns the no-selection value None, and this value is distinct
from the empty list value returned whenever every successfully parsed index
is filtered out as out of bounds; the expression "99" with 5 total pages is
such a filtered-out case. -/
theorem C8_blank_is_no_selection (mp : Int) (hmp : 0 ≤ mp)
    (expr : List Char) (hblank : pyStrip expr = []) :
    parse_page_selection_run expr mp = ParseOutcome.noSelection ∧
    parse_page_selection expr mp = none ∧
    (∀ e2 : List Char,
      parse_page_selection_run e2 mp = ParseOutcome.pages [] →
        parse_page_selection e2 mp = some [] ∧
        parse_page_selection e2 mp ≠ parse_page_selection expr mp) ∧
    parse_page_selection_run (String.data "99") 5 = ParseOutcome.pages [] := by
  have hrun := parse_blank_run hblank mp
  have hval : parse_page_selection expr mp = none := by
    rw [parse_page_selection, hrun]
  refine ⟨hrun, hval, ?_, by decide⟩
  intro e2 h2
  have hv2 : parse_page_selection e2 mp = some [] := by
    rw [parse_page_selection, h2]
  rw [hv2, hval]
  exact ⟨rfl, fun h => Option.noConfusion h⟩

/-- Witness for C8 at the all-whitespace expression and 7 pages. -/
theorem C8_blank_is_no_selection_witness :
    parse_page_selection_run (String.data "  ") 7 =
      ParseOutcome.noSelection ∧
    parse_page_selection (String.data "  ") 7 = none ∧
    (∀ e2 : List Char,
      parse_page_selection_run e2 7 = ParseOutcome.pages [] →
        parse_page_selection e2 7 = some [] ∧
        parse_page_selection e2 7 ≠ parse_page_selection (String.data "  ") 7) ∧
    parse_page_selection_run (String.data "99") 5 = ParseOutcome.pages [] :=
  C8_blank_is_no_selection 7 (by decide) (String.data "  ") (by decide)

/-- An expression with an unparsable token returns None, whether or not it
is blank. -/
theorem parse_bad_token_none (expr : List Char) (mp : Int)
    (hbad : ∃ part ∈ expr.splitOn ',', parseToken part = none) :
    parse_page_selection expr mp = none := by
  by_cases hblank : pyStrip expr = []
  · rw [parse_page_selection, parse_blank_run hblank]
  · rw [parse_page_selection, parse_page_selection_run, if_neg hblank,
      collectTokens_none hbad]

/-- C10: at the public interface a malformed expression is indistinguishable
from a blank one: any expression containing an unparsable token returns the
same value None that every blank expression returns, so the caller cannot
tell a format error from no selection, and the application falls back to
analyzing the whole document. -/
theorem C10_malformed_equals_blank (expr : List Char) (mp : Int)
    (hbad : ∃ part ∈ expr.splitOn ',', parseToken part = none) :
    parse_page_selection expr mp = none ∧
    (∀ b : List Char, pyStrip b = [] →
      parse_page_selection expr mp = parse_page_selection b mp) ∧
    app_uses_whole_document expr mp = true := by
  have hval := parse_bad_token_none expr mp hbad
  refine ⟨hval, ?_, ?_⟩
  · intro b hb
    rw [hval, parse_page_selection, parse_blank_run hb]
  · rw [app_uses_whole_document]
    by_cases hemp : expr = []
    · rw [if_pos hemp]
    · rw [if_neg hemp, hval]

/-- Witness for C10 at the expression "2, x" with 9 pages. -/
theorem C10_malformed_equals_blank_witness :
    parse_page_selection (String.data "2, x") 9 = none ∧
    (∀ b : List Char, pyStrip b = [] →
      parse_page_selection (String.data "2, x") 9 =
        parse_page_selection b 9) ∧
    app_uses_whole_document (String.data "2, x") 9 = true :=
  C10_malformed_equals_blank (String.data "2, x") 9 (by decide)

/-- extract_pages_from_pdf from src/app.py lines 44-56, with a PDF document
modelled as the list of its pages (page content abstract): the writer starts
empty and, for each index in order, appends the reader page at that index;
pypdf raises IndexError on an out-of-range index, modelled as none. The
temporary output location is abstracted away: the value is the written
document itself. -/
def extract_pages_from_pdf {α : Type} (pages : List α) (page_indices : List Nat) :
    Option (List α) :=
  match page_indices with
  | [] => some []
  | idx :: rest =>
    match pages[idx]?, extract_pages_from_pdf pages rest with
    | some pg, some out => some (pg :: out)
    | _, _ => none

/-- With every index in bounds, extraction succeeds and the output has one
page per index, the page at that index. -/
theorem extract_pages_spec {α : Type} (pages : List α) (idxs : List Nat)
    (hb : ∀ i ∈ idxs, i < pages.length) :
    ∃ out, extract_pages_from_pdf pages idxs = some out ∧
      out.length = idxs.length ∧
      ∀ k (hk : k < idxs.length), out[k]? = pages[idxs.get ⟨k, hk⟩]? := by
  induction idxs with
  | nil => exact ⟨[], rfl, rfl, fun k hk => absurd hk (by simp)⟩
  | cons i rest ih =>
      obtain ⟨out, hout, hlen, hget⟩ :=
        ih (fun j hj => hb j (List.mem_cons_of_mem _ hj))
      have hi : i < pages.length := hb i (List.mem_cons_self _ _)
      refine ⟨pages[i] :: out, ?_, by simp [hlen], ?_⟩
      · rw [extract_pages_from_pdf, hout,
          List.getElem?_eq_getElem hi]
      · intro k hk
        cases k with
        | zero => simp [List.getElem?_eq_getElem hi]
        | succ k2 =>
            have hk2 : k2 < rest.length := by
              simpa using Nat.lt_of_succ_lt_succ hk
            simpa using hget k2 hk2

/-- Shifting every index by one skips the first page. -/
theorem extract_pages_shift {α : Type} (p : α) (ps : List α)
    (idxs : List Nat) :
    extract_pages_from_pdf (p :: ps) (idxs.map Nat.succ) =
      extract_pages_from_pdf ps idxs := by
  induction idxs with
  | nil => rfl
  | cons i rest ih =>
      simp only [List.map, extract_pages_from_pdf, List.getElem?_cons_succ, ih]

/-- Extracting the full index list reproduces the document. -/
theorem extract_pages_full {α : Type} (pages : List α) :
    extract_pages_from_pdf pages (List.range pages.length) = some pages := by
  induction pages with
  | nil => rfl
  | cons p ps ih =>
      rw [List.length_cons, List.range_succ_eq_map, extract_pages_from_pdf,
        extract_pages_shift, ih]
      simp

/-- C6: for every readable source document and every list of in-bounds page
indices, extraction produces a document with one page per index, the page at
the corresponding source index in order; and slicing with the full index
list 0 to N-1 reproduces a document with the same page count (in fact the
same pages). -/
theorem C6_extract_pages_correct {α : Type} (pages : List α)
    (idxs : List Nat) (hne : idxs ≠ [])
    (hb : ∀ i ∈ idxs, i < pages.length) :
    (∃ out, extract_pages_from_pdf pages idxs = some out ∧
      out.length = idxs.length ∧
      ∀ k (hk : k < idxs.length), out[k]? = pages[idxs.get ⟨k, hk⟩]?) ∧
    extract_pages_from_pdf pages (List.range pages.length) = some pages ∧
    (extract_pages_from_pdf pages (List.range pages.length)).map
      List.length = some pages.length := by
  refine ⟨extract_pages_spec pages idxs hb, extract_pages_full pages, ?_⟩
  rw [extract_pages_full]
  rfl

/-- Witness for C6: a ten-page document sliced with indices 1, 3, 4. -/
theorem C6_extract_pages_correct_witness :
    (∃ out, extract_pages_from_pdf
        [10, 20, 30, 40, 50, 60, 70, 80, 90, 100] [1, 3, 4] = some out ∧
      out.length = List.length [1, 3, 4] ∧
      ∀ k (hk : k < List.length [1, 3, 4]), out[k]? =
        [10, 20, 30, 40, 50, 60, 70, 80, 90, 100][List.get [1, 3, 4] ⟨k, hk⟩]?) ∧
    extract_pages_from_pdf [10, 20, 30, 40, 50, 60, 70, 80, 90, 100]
      (List.range (List.length [10, 20, 30, 40, 50, 60, 70, 80, 90, 100])) =
      some [10, 20, 30, 40, 50, 60, 70, 80, 90, 100] ∧
    (extract_pages_from_pdf [10, 20, 30, 40, 50, 60, 70, 80, 90, 100]
      (List.range (List.length [10, 20, 30, 40, 50, 60, 70, 80, 90, 100]))).map
      List.length =
      some (List.length [10, 20, 30, 40, 50, 60, 70, 80, 90, 100]) :=
  C6_extract_pages_correct (α := Nat)
    [10, 20, 30, 40, 50, 60, 70, 80, 90, 100] [1, 3, 4]
    (by decide) (by decide)

/-- A Python exception raised by the remote service client, identified by its
message text. -/
structure PyErr where
  msg : String
deriving DecidableEq

/-- A response object of the generate call: the text attribute (none models
Python None, the empty string is also falsy), and prompt_feedback with its
block_reason name (outer none models a missing feedback object, inner none a
falsy block reason). -/
structure GenResponse where
  text : Option String
  promptFeedback : Option (Option String)
deriving DecidableEq

/-- The block indicator of a response: present exactly when the feedback
object is truthy and carries a truthy block reason. -/
def blockOf (r : GenResponse) : Option String :=
  match r.promptFeedback with
  | some (some s) => some s
  | _ => none

/-- Behavior of the remote Gemini service and of the session configuration,
as visible to one call of analyze_document_with_gemini: the configured flag
(src/ai_engine.py lines 10-21 and 38), the upload outcome (line 46), the
state right after upload and the state reported by the k-th get_file poll
(lines 49-51), the generate outcome per model name (lines 77-78), and the
outcome of the k-th delete_file call (lines 54, 81, 95). -/
structure GeminiEnv where
  configured : Bool
  upload : Except PyErr Unit
  uploadState : String
  pollStates : Nat → Except PyErr String
  generate : String → Except PyErr GenResponse
  deleteResult : Nat → Except PyErr Unit

/-- The single model identifier used by src/ai_engine.py line 41. -/
def geminiModelName : String := "gemini-2.5-flash"

/-- Error payloads built by analyze_document_with_gemini via json.dumps of a
single-field error object; the payload is modelled by its tag and embedded
data rather than by the serialized JSON text. -/
inductive ErrorMsg where
  | notConfigured
  | stateFail (st : String)
  | blocked (reason : String)
  | emptyResponse
  | unexpected (msg : String)
deriving DecidableEq

/-- The exact message string serialized under the error key of the JSON
payload for each error case of src/ai_engine.py. -/
def renderError : ErrorMsg → String
  | .notConfigured => "Gemini API is not configured."
  | .stateFail st => "File processing failed on the API side. State: " ++ st
  | .blocked r => "AI Blocked Request: " ++ r
  | .emptyResponse =>
      "AI returned an empty response. Try simplifying the prompt or file."
  | .unexpected m =>
      "An unexpected error occurred during API call: " ++ m

/-- A value returned by analyze_document_with_gemini: the raw response text
on success, or a JSON error payload. -/
inductive AnalyzeResult where
  | text (t : String)
  | errorPayload (m : ErrorMsg)
deriving DecidableEq

/-- The except handler of src/ai_engine.py lines 92-96 when file_ref is in
scope: delete_file is attempted (the d-th delete call); if that delete
itself raises, the new exception propagates out of the handler unhandled,
otherwise the unexpected-error payload for the original exception is
returned. -/
def handleExcept (env : GeminiEnv) (d : Nat) (e : PyErr) :
    Except PyErr AnalyzeResult × Nat :=
  match env.deleteResult d with
  | .error e2 => (.error e2, d + 1)
  | .ok _ => (.ok (.errorPayload (.unexpected e.msg)), d + 1)

/-- The polling loop of src/ai_engine.py lines 49-51: while the state is
PROCESSING, sleep and re-fetch. The loop is unbounded in the source; fuel
bounds the number of re-fetches in the model and none stands for a loop
that is still polling after fuel steps. A raising get_file is an error. -/
def runPoll (env : GeminiEnv) : Nat → Nat → String →
    Option (Except PyErr String)
  | fuel, k, st =>
    if st = "PROCESSING" then
      match fuel with
      | 0 => none
      | f + 1 =>
        match env.pollStates k with
        | .error e => some (.error e)
        | .ok st2 => runPoll env f (k + 1) st2
    else some (.ok st)

/-- analyze_document_with_gemini from src/ai_engine.py lines 36-96, as a
function of the service environment and of the polling fuel. The result is
none when the polling loop never leaves PROCESSING; otherwise it carries the
Python outcome (a returned value or an uncaught exception) together with the
number of delete_file calls attempted during the call. -/
def analyze_document_with_gemini (env : GeminiEnv) (fuel : Nat) :
    Option (Except PyErr AnalyzeResult × Nat) :=
  if env.configured = false then
    some (.ok (.errorPayload .notConfigured), 0)
  else
    match env.upload with
    | .error e => some (.ok (.errorPayload (.unexpected e.msg)), 0)
    | .ok _ =>
      match runPoll env fuel 0 env.uploadState with
      | none => none
      | some (.error e) => some (handleExcept env 0 e)
      | some (.ok st) =>
        if st = "ACTIVE" then
          match env.generate geminiModelName with
          | .error e => some (handleExcept env 0 e)
          | .ok resp =>
            match env.deleteResult 0 with
            | .error e => some (handleExcept env 1 e)
            | .ok _ =>
              match resp.text with
              | none =>
                match blockOf resp with
                | some r => some (.ok (.errorPayload (.blocked r)), 1)
                | none => some (.ok (.errorPayload .emptyResponse), 1)
              | some t =>
                if t = "" then
                  match blockOf resp with
                  | some r => some (.ok (.errorPayload (.blocked r)), 1)
                  | none => some (.ok (.errorPayload .emptyResponse), 1)
                else some (.ok (.text t), 1)
        else
          match env.deleteResult 0 with
          | .error e => some (handleExcept env 1 e)
          | .ok _ => some (.ok (.errorPayload (.stateFail st)), 1)

/-- Decidable equality of Except outcomes, needed to evaluate the model on
concrete environments. -/
instance exceptDecEq {e a : Type} [DecidableEq e] [DecidableEq a] :
    DecidableEq (Except e a) := fun x y =>
  match x, y with
  | .ok v, .ok w =>
      if h : v = w then isTrue (by rw [h])
      else isFalse (fun he => h (Except.ok.inj he))
  | .error v, .error w =>
      if h : v = w then isTrue (by rw [h])
      else isFalse (fun he => h (Except.error.inj he))
  | .ok _, .error _ => isFalse (fun he => Except.noConfusion he)
  | .error _, .ok _ => isFalse (fun he => Except.noConfusion he)

/-- Environment in which the configured model identifier is rejected by the
service while other identifiers would succeed. -/
def envC2 : GeminiEnv where
  configured := true
  upload := .ok ()
  uploadState := "ACTIVE"
  pollStates := fun _ => .ok "ACTIVE"
  generate := fun m =>
    if m = "gemini-2.5-flash" then
      .error ⟨"404 models/gemini-2.5-flash is not found"⟩
    else .ok ⟨some "GOOD", none⟩
  deleteResult := fun _ => .ok ()

/-- C2 counterexample: in an environment where the primary identifier fails
and any other identifier (for example gemini-1.5-pro-latest) would succeed
with text GOOD, analyze does not retry a secondary identifier: it returns
the unexpected-error payload embedding only the exception message, not the
success text of the would-be fallback, and not a payload listing attempted
or available identifiers. -/
theorem C2_no_fallback_counterexample :
    envC2.generate "gemini-1.5-pro-latest" = .ok ⟨some "GOOD", none⟩ ∧
    analyze_document_with_gemini envC2 0 =
      some (.ok (.errorPayload
        (.unexpected "404 models/gemini-2.5-flash is not found")), 1) ∧
    analyze_document_with_gemini envC2 0 ≠
      some (.ok (.text "GOOD"), 1) := by
  refine ⟨by decide, by decide, by decide⟩

/-- C2 amended: analyze attempts exactly one model identifier (the single
configured name gemini-2.5-flash); on any invocation failure it does not
retry another identifier and, provided the cleanup delete succeeds, returns
a structured error payload embedding the exception message only — neither
the attempted identifiers nor the list of available models. -/
theorem C2_amended_single_attempt (env : GeminiEnv) (fuel : Nat) (e : PyErr)
    (hconf : env.configured = true)
    (hup : env.upload = .ok ())
    (hpoll : runPoll env fuel 0 env.uploadState = some (.ok "ACTIVE"))
    (hgen : env.generate geminiModelName = .error e)
    (hdel : env.deleteResult 0 = .ok ()) :
    analyze_document_with_gemini env fuel =
      some (.ok (.errorPayload (.unexpected e.msg)), 1) := by
  simp [analyze_document_with_gemini, hconf, hup, hpoll, hgen, hdel,
    handleExcept]

/-- Witness for the amended C2 in the concrete failing environment. -/
theorem C2_amended_single_attempt_witness :
    analyze_document_with_gemini envC2 0 =
      some (.ok (.errorPayload
        (.unexpected "404 models/gemini-2.5-flash is not found")), 1) :=
  C2_amended_single_attempt envC2 0
    ⟨"404 models/gemini-2.5-flash is not found"⟩
    (by decide) (by decide) (by decide) (by decide) (by decide)

/-- Environment in which the model responds successfully with text but every
delete_file call raises. -/
def envC3 : GeminiEnv where
  configured := true
  upload := .ok ()
  uploadState := "ACTIVE"
  pollStates := fun _ => .ok "ACTIVE"
  generate := fun _ => .ok ⟨some "GOOD", none⟩
  deleteResult := fun _ => .error ⟨"delete failed"⟩

/-- C3 counterexample: the model responds with text GOOD, but the failing
remote-handle deletion masks the primary outcome: on this path the delete at
line 81 raises, the handler at lines 94-95 deletes again and raises once
more, and analyze raises instead of returning the success text. -/
theorem C3_cleanup_masks_result_counterexample :
    envC3.generate geminiModelName = .ok ⟨some "GOOD", none⟩ ∧
    analyze_document_with_gemini envC3 0 =
      some (.error ⟨"delete failed"⟩, 2) ∧
    analyze_document_with_gemini envC3 0 ≠
      some (.ok (.text "GOOD"), 1) ∧
    analyze_document_with_gemini envC3 0 ≠
      some (.ok (.text "GOOD"), 2) := by
  refine ⟨by decide, by decide, by decide, by decide⟩

/-- C3 amended: on every exit path after a successful staging whose polling
terminates, deletion of the remote file handle is attempted at least once;
however a failure of the deletion itself is not isolated and can replace the
primary outcome, as the counterexample shows on the success path. -/
theorem C3_amended_delete_always_attempted (env : GeminiEnv) (fuel : Nat)
    (hconf : env.configured = true)
    (hup : env.upload = .ok ())
    (hterm : runPoll env fuel 0 env.uploadState ≠ none) :
    ∃ out d, analyze_document_with_gemini env fuel = some (out, d) ∧
      1 ≤ d := by
  rw [analyze_document_with_gemini, hconf, hup]
  simp only [Bool.true_eq_false, if_false]
  cases hpoll : runPoll env fuel 0 env.uploadState with
  | none => exact absurd hpoll hterm
  | some r =>
      cases r with
      | error e =>
          cases hd : env.deleteResult 0 with
          | error e2 => exact ⟨.error e2, 1, by simp [handleExcept, hd], by omega⟩
          | ok u =>
              exact ⟨.ok (.errorPayload (.unexpected e.msg)), 1,
                by simp [handleExcept, hd], by omega⟩
      | ok st =>
          by_cases hst : st = "ACTIVE"
          · subst hst
            simp only [if_pos rfl]
            cases hg : env.generate geminiModelName with
            | error e =>
                cases hd : env.deleteResult 0 with
                | error e2 =>
                    exact ⟨.error e2, 1, by simp [handleExcept, hd], by omega⟩
                | ok u =>
                    exact ⟨.ok (.errorPayload (.unexpected e.msg)), 1,
                      by simp [handleExcept, hd], by omega⟩
            | ok resp =>
                cases hd : env.deleteResult 0 with
                | error e =>
                    cases hd1 : env.deleteResult 1 with
                    | error e2 =>
                        exact ⟨.error e2, 2,
                          by simp [handleExcept, hd, hd1], by omega⟩
                    | ok u =>
                        exact ⟨.ok (.errorPayload (.unexpected e.msg)), 2,
                          by simp [handleExcept, hd, hd1], by omega⟩
                | ok u =>
                    cases htext : resp.text with
                    | none =>
                        cases hb : blockOf resp with
                        | none =>
                            exact ⟨.ok (.errorPayload .emptyResponse), 1,
                              by simp [htext, hb], by omega⟩
                        | some rr =>
                            exact ⟨.ok (.errorPayload (.blocked rr)), 1,
                              by simp [htext, hb], by omega⟩
                    | some t =>
                        by_cases ht : t = ""
                        · subst ht
                          cases hb : blockOf resp with
                          | none =>
                              exact ⟨.ok (.errorPayload .emptyResponse), 1,
                                by simp [htext, hb], by omega⟩
                          | some rr =>
                              exact ⟨.ok (.errorPayload (.blocked rr)), 1,
                                by simp [htext, hb], by omega⟩
                        · exact ⟨.ok (.text t), 1,
                            by simp [htext, ht], by omega⟩
          · simp only [if_neg hst]
            cases hd : env.deleteResult 0 with
            | error e =>
                cases hd1 : env.deleteResult 1 with
                | error e2 =>
                    exact ⟨.error e2, 2,
                      by simp [handleExcept, hd, hd1], by omega⟩
                | ok u =>
                    exact ⟨.ok (.errorPayload (.unexpected e.msg)), 2,
                      by simp [handleExcept, hd, hd1], by omega⟩
            | ok u =>
                exact ⟨.ok (.errorPayload (.stateFail st)), 1,
                  by simp [hd], by omega⟩

/-- Witness for the amended C3 in the environment with failing deletes. -/
theorem C3_amended_delete_always_attempted_witness :
    ∃ out d, analyze_document_with_gemini envC3 0 = some (out, d) ∧
      1 ≤ d :=
  C3_amended_delete_always_attempted envC3 0 (by decide) (by decide)
    (by decide)

/-- C4: whenever the polled state settles on a terminal value other than
ACTIVE, analyze releases the remote file handle (one delete call) and
returns, rather than raising, the JSON error payload whose error field
carries the reported remote state. -/
theorem C4_non_active_returns_state_error (env : GeminiEnv) (fuel : Nat)
    (st : String)
    (hconf : env.configured = true)
    (hup : env.upload = .ok ())
    (hpoll : runPoll env fuel 0 env.uploadState = some (.ok st))
    (hst : st ≠ "ACTIVE")
    (hdel : env.deleteResult 0 = .ok ()) :
    analyze_document_with_gemini env fuel =
      some (.ok (.errorPayload (.stateFail st)), 1) ∧
    renderError (.stateFail st) =
      "File processing failed on the API side. State: " ++ st := by
  constructor
  · rw [analyze_document_with_gemini, hconf, hup]
    simp only [Bool.true_eq_false, if_false, hpoll, if_neg hst, hdel]
  · rfl

/-- Environment whose staged file ends in the FAILED state after one poll. -/
def envC4 : GeminiEnv where
  configured := true
  upload := .ok ()
  uploadState := "PROCESSING"
  pollStates := fun _ => .ok "FAILED"
  generate := fun _ => .ok ⟨some "GOOD", none⟩
  deleteResult := fun _ => .ok ()

/-- Witness for C4 in the environment that settles on FAILED. -/
theorem C4_non_active_returns_state_error_witness :
    analyze_document_with_gemini envC4 1 =
      some (.ok (.errorPayload (.stateFail "FAILED")), 1) ∧
    renderError (.stateFail "FAILED") =
      "File processing failed on the API side. State: " ++ "FAILED" :=
  C4_non_active_returns_state_error envC4 1 "FAILED" (by decide) (by decide)
    (by decide) (by decide) (by decide)

/-- C5: when the model response carries no text, analyze distinguishes the
two cases: with a safety-block indicator it returns the payload naming that
block reason and never the generic empty-response payload; with no block
indicator it returns the empty-response payload. -/
theorem C5_blocked_vs_empty_response (env : GeminiEnv) (fuel : Nat)
    (resp : GenResponse)
    (hconf : env.configured = true)
    (hup : env.upload = .ok ())
    (hpoll : runPoll env fuel 0 env.uploadState = some (.ok "ACTIVE"))
    (hgen : env.generate geminiModelName = .ok resp)
    (hdel : env.deleteResult 0 = .ok ())
    (hfalsy : resp.text = none ∨ resp.text = some "") :
    (∀ r, blockOf resp = some r →
      analyze_document_with_gemini env fuel =
        some (.ok (.errorPayload (.blocked r)), 1) ∧
      ErrorMsg.blocked r ≠ ErrorMsg.emptyResponse ∧
      analyze_document_with_gemini env fuel ≠
        some (.ok (.errorPayload .emptyResponse), 1)) ∧
    (blockOf resp = none →
      analyze_document_with_gemini env fuel =
        some (.ok (.errorPayload .emptyResponse), 1)) := by
  have hbase : ∀ m : ErrorMsg,
      (match blockOf resp with
        | some r => some (Except.ok (AnalyzeResult.errorPayload
            (ErrorMsg.blocked r)), 1)
        | none => some (Except.ok (AnalyzeResult.errorPayload
            ErrorMsg.emptyResponse), 1)) =
        analyze_document_with_gemini env fuel := by
    intro _
    rw [analyze_document_with_gemini, hconf, hup]
    simp only [Bool.true_eq_false, if_false, hpoll, if_pos rfl, hgen, hdel]
    rcases hfalsy with h | h <;> rw [h] <;> simp
  constructor
  · intro r hr
    have h1 : analyze_document_with_gemini env fuel =
        some (.ok (.errorPayload (.blocked r)), 1) := by
      rw [← hbase .emptyResponse, hr]
    refine ⟨h1, fun h => ErrorMsg.noConfusion h, ?_⟩
    rw [h1]
    intro h
    have h2 := Option.some.inj h
    have h3 := congrArg Prod.fst h2
    have h4 := Except.ok.inj h3
    exact ErrorMsg.noConfusion (AnalyzeResult.errorPayload.inj h4)
  · intro hr
    rw [← hbase .emptyResponse, hr]

/-- Environment whose generate result has no text and a safety block. -/
def envC5 : GeminiEnv where
  configured := true
  upload := .ok ()
  uploadState := "ACTIVE"
  pollStates := fun _ => .ok "ACTIVE"
  generate := fun _ => .ok ⟨none, some (some "SAFETY")⟩
  deleteResult := fun _ => .ok ()

/-- Witness for C5 in the blocked environment. -/
theorem C5_blocked_vs_empty_response_witness :
    (∀ r, blockOf ⟨none, some (some "SAFETY")⟩ = some r →
      analyze_document_with_gemini envC5 0 =
        some (.ok (.errorPayload (.blocked r)), 1) ∧
      ErrorMsg.blocked r ≠ ErrorMsg.emptyResponse ∧
      analyze_document_with_gemini envC5 0 ≠
        some (.ok (.errorPayload .emptyResponse), 1)) ∧
    (blockOf ⟨none, some (some "SAFETY")⟩ = none →
      analyze_document_with_gemini envC5 0 =
        some (.ok (.errorPayload .emptyResponse), 1)) :=
  C5_blocked_vs_empty_response envC5 0 ⟨none, some (some "SAFETY")⟩
    (by decide) (by decide) (by decide) (by decide) (by decide)
    (Or.inl rfl)
